import Mathlib

/-!
# Todo routes over a document store

A shallow embedding of `todos/models/todo.js` and `todos/routes/todos.js`.

* The collection is a list of persisted records in natural order.
* A promise is represented by the value it settles to (`Settled`); a `.then`
  with one callback lets a rejection pass through, a `.then` with two
  callbacks handles both outcomes.
* What a handler does to `res` and `next` is recorded in order in an
  `Exchange`: the status code it leaves on the response and the calls it made.
* The model layer (mongoose) is embedded with the behaviour the schema of
  `todo.js` switches on: `required: true` on the string path `title` rejects a
  missing or empty title when a document is saved, `timestamps: true` stamps a
  new document with `createdAt = updatedAt` and refreshes `updatedAt` when a
  loaded document that has been modified is saved, `_id` is unique in the
  collection, and a path segment that does not cast to an ObjectId rejects the
  query with a cast error.
* The clock reading and the ObjectId generated for a new document are inputs
  of a route.  The store itself is taken to be reachable: queries reject
  only for the reasons above.
* The generator of ObjectIds is the state of the server process (`Server`): it
  never hands out an id twice, which is modelled by a counter that a
  `new Todo(...)` reads and advances.
-/

namespace Todos

/-! ## Values -/

/-- An ObjectId, as a number. -/
abbrev ObjectId := Nat

/-- A field of `req.body` as the handlers read it: missing, or a primitive value. -/
inductive JsVal where
  | undefined
  | null
  | bool (b : Bool)
  | str (s : String)
  deriving DecidableEq

/-- JavaScript truthiness, the test of `v ? true : false`. -/
def JsVal.truthy : JsVal → Bool
  | .undefined => false
  | .null => false
  | .bool b => b
  | .str s => decide (s ≠ "")

/-- The cast of the schema type `String`: `null` and `undefined` stay unset,
a string is kept, a boolean is rendered by `toString()`. -/
def JsVal.castString : JsVal → Option String
  | .undefined => none
  | .null => none
  | .bool true => some "true"
  | .bool false => some "false"
  | .str s => some s

/-- The request body of the create and update routes. -/
structure Body where
  title : JsVal
  completed : JsVal
  deriving DecidableEq

/-- The `:id` segment of the path as the model layer sees it: it casts to an
ObjectId, or it does not (any segment such as `abc`). -/
inductive IdParam where
  | oid (id : ObjectId)
  | uncastable (raw : String)
  deriving DecidableEq

/-! ## Records and documents -/

/-- A persisted record of `TodoSchema` (`timestamps: true` adds the two dates). -/
structure Todo where
  id : ObjectId
  title : String
  completed : Bool
  createdAt : Nat
  updatedAt : Nat
  deriving DecidableEq

/-- The collection. -/
abbrev Store := List Todo

/-- A document in memory: its current field values, whether it has never been
saved, and whether a path has been modified since it was loaded. -/
structure Doc where
  id : ObjectId
  title : Option String
  completed : Bool
  isNew : Bool
  modified : Bool
  deriving DecidableEq

/-- The document handed out by a query for a stored record. -/
def Doc.init (t : Todo) : Doc :=
  { id := t.id, title := some t.title, completed := t.completed,
    isNew := false, modified := false }

/-- The document built by `new Todo({ title, completed })` with a generated id. -/
def Doc.create (oid : ObjectId) (title : JsVal) (completed : Bool) : Doc :=
  { id := oid, title := title.castString, completed := completed,
    isNew := true, modified := true }

/-- Assignment `todo.title = v`: the value is cast, and the path is marked
modified only when the value differs from the current one. -/
def Doc.setTitle (d : Doc) (v : JsVal) : Doc :=
  if v.castString = d.title then d
  else { d with title := v.castString, modified := true }

/-- Assignment `todo.completed = b`. -/
def Doc.setCompleted (d : Doc) (b : Bool) : Doc :=
  if b = d.completed then d
  else { d with completed := b, modified := true }

/-! ## Failures and promises -/

/-- What a rejected promise or a call of `next(err)` carries. -/
inductive Failure where
  /-- The error `new Error(message)` with `error.status = status`, built by `makeError`. -/
  | http (message : String) (status : Nat)
  /-- Validation of a required path failed on save. -/
  | validation (path : String)
  /-- The id of the query does not cast to an ObjectId. -/
  | cast (raw : String)
  /-- The unique index on `_id` refused an insert. -/
  | duplicateKey (id : ObjectId)
  deriving DecidableEq

/-- The outcome of a promise. -/
inductive Settled (α : Type) where
  | fulfilled (value : α)
  | rejected (err : Failure)
  deriving DecidableEq

/-! ## The model layer -/

/-- The cast of an id in a query filter. -/
def castId : IdParam → Except Failure ObjectId
  | .oid id => .ok id
  | .uncastable raw => .error (.cast raw)

/-- Lookup of a record by `_id`. -/
def Store.lookup (db : Store) (id : ObjectId) : Option Todo :=
  db.find? (fun t => decide (t.id = id))

/-- The query `Todo.findById(id)`. -/
def findById (db : Store) (id : IdParam) : Settled (Option Todo) :=
  match castId id with
  | .error e => .rejected e
  | .ok oid => .fulfilled (db.lookup oid)

/-- Order of `.sort('-createdAt')`: newest first. -/
def newestFirst (a b : Todo) : Prop := b.createdAt ≤ a.createdAt

instance : DecidableRel newestFirst := fun a b => Nat.decLe b.createdAt a.createdAt

/-- The query `Todo.find({}).sort('-createdAt')`. -/
def findSorted (db : Store) : Settled (List Todo) :=
  .fulfilled (db.insertionSort newestFirst)

/-- The query `Todo.findByIdAndRemove(id)`: removes the record with that id,
when there is one, and fulfils in either case. -/
def findByIdAndRemove (db : Store) (id : IdParam) : Settled (Option Todo) × Store :=
  match castId id with
  | .error e => (.rejected e, db)
  | .ok oid => (.fulfilled (db.lookup oid), db.eraseP (fun t => decide (t.id = oid)))

/-- The insert of a new record, stamped with both dates. -/
def Store.insertOne (db : Store) (id : ObjectId) (title : String) (completed : Bool)
    (now : Nat) : Store :=
  db ++ [{ id := id, title := title, completed := completed, createdAt := now, updatedAt := now }]

/-- The write of a modified document: it sets `title`, `completed` and
`updatedAt` of the record with that id and touches nothing else. -/
def Store.updateOne (db : Store) (id : ObjectId) (title : String) (completed : Bool)
    (now : Nat) : Store :=
  db.map (fun t =>
    if t.id = id then { t with title := title, completed := completed, updatedAt := now }
    else t)

/-- The method `doc.save()` at clock reading `now`.

Validation runs first: `title` is required, so an unset or empty title rejects
and nothing is written.  A new document is inserted with both dates set to
`now`, unless its id is taken.  A loaded document is written back only when it
has been modified, and then `updatedAt` is set to `now`. -/
def save (db : Store) (doc : Doc) (now : Nat) : Settled Doc × Store :=
  match doc.title with
  | none => (.rejected (.validation "title"), db)
  | some title =>
    if title = "" then (.rejected (.validation "title"), db)
    else if doc.isNew then
      if db.any (fun t => decide (t.id = doc.id)) then (.rejected (.duplicateKey doc.id), db)
      else
        (.fulfilled { doc with isNew := false, modified := false },
          db.insertOne doc.id title doc.completed now)
    else if doc.modified then
      (.fulfilled { doc with modified := false },
        db.updateOne doc.id title doc.completed now)
    else (.fulfilled doc, db)

/-! ## The response -/

/-- The data object handed to a view. -/
inductive Locals where
  | todos (todos : List Todo)
  | todo (todo : Todo)
  | blank (title : String) (completed : Bool)
  deriving DecidableEq

/-- A call made by a handler on `res` or `next`. -/
inductive Call where
  | render (view : String) (locals : Locals)
  | redirect (url : String)
  | next (err : Failure)
  deriving DecidableEq

/-- What a handler has done to the response so far. -/
structure Exchange where
  statusCode : Nat
  calls : List Call
  deriving DecidableEq

/-- The exchange when a handler is entered. -/
def Exchange.start : Exchange := { statusCode := 200, calls := [] }

/-- The call `res.render(view, locals)`. -/
def Exchange.render (x : Exchange) (view : String) (locals : Locals) : Exchange :=
  { x with calls := x.calls ++ [.render view locals] }

/-- The call `res.redirect(url)`. -/
def Exchange.redirect (x : Exchange) (url : String) : Exchange :=
  { x with calls := x.calls ++ [.redirect url] }

/-- The call `next(err)`. -/
def Exchange.next (x : Exchange) (err : Failure) : Exchange :=
  { x with calls := x.calls ++ [.next err] }

/-- The function `makeError(res, message, status)`: sets the status code of
the response and returns the error. -/
def makeError (res : Exchange) (message : String) (status : Nat) : Failure × Exchange :=
  (.http message status, { res with statusCode := status })

/-! ## The routes -/

/-- INDEX, `router.get('/')`. -/
def indexRoute (db : Store) : Store × Exchange :=
  let res := Exchange.start
  match findSorted db with
  | .fulfilled todos => (db, res.render "todos/index" (.todos todos))
  | .rejected err => (db, res.next err)

/-- NEW, `router.get('/new')`. -/
def newRoute (db : Store) : Store × Exchange :=
  (db, Exchange.start.render "todos/new" (.blank "" false))

/-- SHOW, `router.get('/:id')`. -/
def showRoute (id : IdParam) (db : Store) : Store × Exchange :=
  let res := Exchange.start
  match findById db id with
  | .fulfilled none =>
    let (error, res) := makeError res "Document not found" 404
    (db, res.next error)
  | .fulfilled (some todo) => (db, res.render "todos/show" (.todo todo))
  | .rejected err => (db, res.next err)

/-- CREATE, `router.post('/')`; `oid` is the id generated for the new document. -/
def createRoute (body : Body) (oid : ObjectId) (now : Nat) (db : Store) : Store × Exchange :=
  let res := Exchange.start
  let todo := Doc.create oid body.title (if body.completed.truthy then true else false)
  match save db todo now with
  | (.fulfilled _, db) => (db, res.redirect "/todos")
  | (.rejected err, db) => (db, res.next err)

/-- EDIT, `router.get('/:id/edit')`. -/
def editRoute (id : IdParam) (db : Store) : Store × Exchange :=
  let res := Exchange.start
  match findById db id with
  | .fulfilled none =>
    let (error, res) := makeError res "Document not found" 404
    (db, res.next error)
  | .fulfilled (some todo) => (db, res.render "todos/edit" (.todo todo))
  | .rejected err => (db, res.next err)

/-- The second `.then` of the update and toggle chains: redirect when the
first promise fulfilled, whatever its value, forward the error when it rejected. -/
def thenRedirect (first : Settled (Option Doc) × Store × Exchange) : Store × Exchange :=
  match first with
  | (.fulfilled _, db, res) => (db, res.redirect "/todos")
  | (.rejected err, db, res) => (db, res.next err)

/-- The first `.then` of UPDATE.  It has no rejection callback, so a rejected
query passes through.  For a missing record it returns the value of
`next(...)`, which is `undefined`: the promise fulfils. -/
def updateFirst (id : IdParam) (body : Body) (now : Nat) (db : Store) :
    Settled (Option Doc) × Store × Exchange :=
  let res := Exchange.start
  match findById db id with
  | .rejected err => (.rejected err, db, res)
  | .fulfilled none =>
    let (error, res) := makeError res "Document not found" 404
    (.fulfilled none, db, res.next error)
  | .fulfilled (some found) =>
    let todo := Doc.init found
    let todo := todo.setTitle body.title
    let todo := todo.setCompleted (if body.completed.truthy then true else false)
    match save db todo now with
    | (.fulfilled saved, db) => (.fulfilled (some saved), db, res)
    | (.rejected err, db) => (.rejected err, db, res)

/-- UPDATE, `router.put('/:id')`. -/
def updateRoute (id : IdParam) (body : Body) (now : Nat) (db : Store) : Store × Exchange :=
  thenRedirect (updateFirst id body now db)

/-- DESTROY, `router.delete('/:id')`. -/
def destroyRoute (id : IdParam) (db : Store) : Store × Exchange :=
  let res := Exchange.start
  match findByIdAndRemove db id with
  | (.fulfilled _, db) => (db, res.redirect "/todos")
  | (.rejected err, db) => (db, res.next err)

/-- The first `.then` of TOGGLE, of the same shape as that of UPDATE. -/
def toggleFirst (id : IdParam) (now : Nat) (db : Store) :
    Settled (Option Doc) × Store × Exchange :=
  let res := Exchange.start
  match findById db id with
  | .rejected err => (.rejected err, db, res)
  | .fulfilled none =>
    let (error, res) := makeError res "Document not found" 404
    (.fulfilled none, db, res.next error)
  | .fulfilled (some found) =>
    let todo := Doc.init found
    let todo := todo.setCompleted (!todo.completed)
    match save db todo now with
    | (.fulfilled saved, db) => (.fulfilled (some saved), db, res)
    | (.rejected err, db) => (.rejected err, db, res)

/-- TOGGLE completed, `router.get('/:id/toggle')`. -/
def toggleRoute (id : IdParam) (now : Nat) (db : Store) : Store × Exchange :=
  thenRedirect (toggleFirst id now db)

/-! ## Requests and runs -/

/-- A request to the router, with the clock reading and generated id it uses. -/
inductive Request where
  | index
  | new
  | show_ (id : IdParam)
  | create (body : Body) (oid : ObjectId) (now : Nat)
  | edit (id : IdParam)
  | update (id : IdParam) (body : Body) (now : Nat)
  | destroy (id : IdParam)
  | toggle (id : IdParam) (now : Nat)
  deriving DecidableEq

/-- Dispatch of a request to its handler. -/
def handle (r : Request) (db : Store) : Store × Exchange :=
  match r with
  | .index => indexRoute db
  | .new => newRoute db
  | .show_ id => showRoute id db
  | .create body oid now => createRoute body oid now db
  | .edit id => editRoute id db
  | .update id body now => updateRoute id body now db
  | .destroy id => destroyRoute id db
  | .toggle id now => toggleRoute id now db

/-- The store after a sequence of requests, handled one after the other. -/
def run (rs : List Request) (db : Store) : Store :=
  rs.foldl (fun db r => (handle r db).1) db

/-! ## The id generator -/

/-- A request as a client sends it: the id of a new document is not part of it. -/
inductive Incoming where
  | index
  | new
  | show_ (id : IdParam)
  | create (body : Body) (now : Nat)
  | edit (id : IdParam)
  | update (id : IdParam) (body : Body) (now : Nat)
  | destroy (id : IdParam)
  | toggle (id : IdParam) (now : Nat)
  deriving DecidableEq

/-- The server process: the collection, and the state of the generator of
ObjectIds, which hands out ids in increasing order (`nextId` is the next one). -/
structure Server where
  store : Store
  nextId : ObjectId
  deriving DecidableEq

/-- A request handled by the server.  Only CREATE builds a document with
`new Todo(...)`: it takes the next id of the generator, which then advances,
whether or not the save succeeds. -/
def serve (r : Incoming) (s : Server) : Server × Exchange :=
  match r with
  | .index => ({ s with store := (indexRoute s.store).1 }, (indexRoute s.store).2)
  | .new => ({ s with store := (newRoute s.store).1 }, (newRoute s.store).2)
  | .show_ id => ({ s with store := (showRoute id s.store).1 }, (showRoute id s.store).2)
  | .create body now =>
    ({ store := (createRoute body s.nextId now s.store).1, nextId := s.nextId + 1 },
      (createRoute body s.nextId now s.store).2)
  | .edit id => ({ s with store := (editRoute id s.store).1 }, (editRoute id s.store).2)
  | .update id body now =>
    ({ s with store := (updateRoute id body now s.store).1 },
      (updateRoute id body now s.store).2)
  | .destroy id =>
    ({ s with store := (destroyRoute id s.store).1 }, (destroyRoute id s.store).2)
  | .toggle id now =>
    ({ s with store := (toggleRoute id now s.store).1 }, (toggleRoute id now s.store).2)

/-- The server after a sequence of requests, handled one after the other. -/
def serveAll (rs : List Incoming) (s : Server) : Server :=
  rs.foldl (fun s r => (serve r s).1) s

/-- Every stored id has been handed out already: it lies below the next id. -/
def Server.Fresh (s : Server) : Prop := ∀ t ∈ s.store, t.id < s.nextId

instance (s : Server) : Decidable s.Fresh := by unfold Server.Fresh; infer_instance

/-! ## Predicates on stores -/

/-- No two records share an id. -/
def UniqueIds (db : Store) : Prop := (db.map Todo.id).Nodup

/-- Every record satisfies the schema: its title is not empty. -/
def SchemaValid (db : Store) : Prop := ∀ t ∈ db, t.title ≠ ""

instance (db : Store) : Decidable (UniqueIds db) := by unfold UniqueIds; infer_instance

instance (db : Store) : Decidable (SchemaValid db) := by unfold SchemaValid; infer_instance

/-! ## Lookup after a write -/

theorem lookup_some {db : Store} {i : ObjectId} {t : Todo} (h : db.lookup i = some t) :
    t.id = i ∧ t ∈ db := by
  unfold Store.lookup at h
  exact ⟨by simpa using List.find?_some h, List.mem_of_find?_eq_some h⟩

theorem lookup_eq_none {db : Store} {i : ObjectId} :
    db.lookup i = none ↔ ∀ t ∈ db, t.id ≠ i := by
  simp [Store.lookup]

theorem lookup_updateOne_self (db : Store) (i : ObjectId) (s : String) (c : Bool) (n : Nat) :
    (db.updateOne i s c n).lookup i =
      (db.lookup i).map (fun t => { t with title := s, completed := c, updatedAt := n }) := by
  induction db with
  | nil => rfl
  | cons a db ih =>
    simp only [Store.updateOne, Store.lookup, List.map_cons, List.find?_cons] at ih ⊢
    by_cases h : a.id = i
    · simp [h]
    · simp only [h, if_false, decide_False]
      exact ih

theorem lookup_updateOne_other (db : Store) {i j : ObjectId} (hj : j ≠ i) (s : String)
    (c : Bool) (n : Nat) : (db.updateOne i s c n).lookup j = db.lookup j := by
  induction db with
  | nil => rfl
  | cons a db ih =>
    simp only [Store.updateOne, Store.lookup, List.map_cons, List.find?_cons] at ih ⊢
    by_cases h : a.id = i
    · have hne : ¬ a.id = j := fun e => hj (e.symm.trans h)
      have hij : ¬ i = j := fun e => hj e.symm
      simp only [h, if_true, hij, decide_False]
      exact ih
    · by_cases h2 : a.id = j
      · simp only [h, if_false, h2, decide_True]
        simp only [if_neg hj, h2, decide_True]
      · simp only [h, if_false, h2, decide_False]
        exact ih

theorem filter_updateOne (db : Store) (i : ObjectId) (s : String) (c : Bool) (n : Nat) :
    (db.updateOne i s c n).filter (fun t => decide (t.id ≠ i)) =
      db.filter (fun t => decide (t.id ≠ i)) := by
  induction db with
  | nil => rfl
  | cons a db ih =>
    simp only [Store.updateOne, List.map_cons, List.filter_cons] at ih ⊢
    by_cases h : a.id = i
    · simp only [h, if_true, ne_eq, not_true_eq_false, decide_False]
      simpa using ih
    · simp only [h, if_false, ne_eq, not_false_eq_true, decide_True, if_true]
      rw [ih]

theorem map_id_updateOne (db : Store) (i : ObjectId) (s : String) (c : Bool) (n : Nat) :
    (db.updateOne i s c n).map Todo.id = db.map Todo.id := by
  induction db with
  | nil => rfl
  | cons a db ih =>
    simp only [Store.updateOne, List.map_cons] at ih ⊢
    rw [ih]
    by_cases h : a.id = i <;> simp [h]

/-! ## What each mutating route computes -/

/-- The exchange of a handler that only redirected to the list. -/
def redirected : Exchange := { statusCode := 200, calls := [.redirect "/todos"] }

/-- The exchange of a handler that only forwarded `err`. -/
def forwarded (err : Failure) : Exchange := { statusCode := 200, calls := [.next err] }

/-- The error built by `makeError(res, 'Document not found', 404)`. -/
def notFound : Failure := .http "Document not found" 404

theorem toggleRoute_found {db : Store} {i : ObjectId} {t : Todo} (now : Nat)
    (hf : db.lookup i = some t) (ht : t.title ≠ "") :
    toggleRoute (.oid i) now db = (db.updateOne i t.title (!t.completed) now, redirected) := by
  have hid : t.id = i := (lookup_some hf).1
  cases hc : t.completed <;>
    simp [toggleRoute, toggleFirst, thenRedirect, findById, castId, hf, Doc.init,
      Doc.setCompleted, save, ht, hc, hid, redirected, Exchange.start, Exchange.redirect]

theorem toggleRoute_invalid {db : Store} {i : ObjectId} {t : Todo} (now : Nat)
    (hf : db.lookup i = some t) (ht : t.title = "") :
    toggleRoute (.oid i) now db = (db, forwarded (.validation "title")) := by
  cases hc : t.completed <;>
    simp [toggleRoute, toggleFirst, thenRedirect, findById, castId, hf, Doc.init,
      Doc.setCompleted, save, ht, hc, forwarded, Exchange.start, Exchange.next]

theorem toggleRoute_missing {db : Store} {i : ObjectId} (now : Nat) (hf : db.lookup i = none) :
    toggleRoute (.oid i) now db =
      (db, { statusCode := 404, calls := [.next notFound, .redirect "/todos"] }) := by
  simp [toggleRoute, toggleFirst, thenRedirect, findById, castId, hf, makeError, notFound,
    Exchange.start, Exchange.next, Exchange.redirect]

theorem toggleRoute_uncastable (raw : String) (now : Nat) (db : Store) :
    toggleRoute (.uncastable raw) now db = (db, forwarded (.cast raw)) := by
  simp [toggleRoute, toggleFirst, thenRedirect, findById, castId, forwarded,
    Exchange.start, Exchange.next]

theorem updateRoute_missing {db : Store} {i : ObjectId} (body : Body) (now : Nat)
    (hf : db.lookup i = none) :
    updateRoute (.oid i) body now db =
      (db, { statusCode := 404, calls := [.next notFound, .redirect "/todos"] }) := by
  simp [updateRoute, updateFirst, thenRedirect, findById, castId, hf, makeError, notFound,
    Exchange.start, Exchange.next, Exchange.redirect]

theorem updateRoute_uncastable (raw : String) (body : Body) (now : Nat) (db : Store) :
    updateRoute (.uncastable raw) body now db = (db, forwarded (.cast raw)) := by
  simp [updateRoute, updateFirst, thenRedirect, findById, castId, forwarded,
    Exchange.start, Exchange.next]

theorem init_id (t : Todo) : (Doc.init t).id = t.id := rfl

theorem init_isNew (t : Todo) : (Doc.init t).isNew = false := rfl

/-- The title a document carries after the two assignments of UPDATE. -/
theorem setCompleted_setTitle_title (d : Doc) (v : JsVal) (b : Bool) :
    ((d.setTitle v).setCompleted b).title = v.castString := by
  unfold Doc.setTitle Doc.setCompleted
  split <;> split <;> simp_all

theorem setCompleted_setTitle_completed (d : Doc) (v : JsVal) (b : Bool) :
    ((d.setTitle v).setCompleted b).completed = b := by
  unfold Doc.setTitle Doc.setCompleted
  split <;> split <;> simp_all

theorem setCompleted_setTitle_id (d : Doc) (v : JsVal) (b : Bool) :
    ((d.setTitle v).setCompleted b).id = d.id := by
  unfold Doc.setTitle Doc.setCompleted
  split <;> split <;> simp_all

theorem setCompleted_setTitle_isNew (d : Doc) (v : JsVal) (b : Bool) :
    ((d.setTitle v).setCompleted b).isNew = d.isNew := by
  unfold Doc.setTitle Doc.setCompleted
  split <;> split <;> simp_all

theorem setCompleted_setTitle_modified (t : Todo) (v : JsVal) (b : Bool) :
    (((Doc.init t).setTitle v).setCompleted b).modified =
      decide (¬ (v.castString = some t.title ∧ b = t.completed)) := by
  unfold Doc.setTitle Doc.setCompleted Doc.init
  split <;> split <;> simp_all

theorem updateRoute_found {db : Store} {i : ObjectId} {t : Todo} (body : Body) (now : Nat)
    {s : String} (hf : db.lookup i = some t) (hs : body.title.castString = some s)
    (hne : s ≠ "") :
    updateRoute (.oid i) body now db =
      (if s = t.title ∧ body.completed.truthy = t.completed then db
        else db.updateOne i s body.completed.truthy now, redirected) := by
  have hid : t.id = i := (lookup_some hf).1
  have hb : (if body.completed.truthy = true then true else false) = body.completed.truthy := by
    cases body.completed.truthy <;> rfl
  simp only [updateRoute, updateFirst, findById, castId, hf, hb, save,
    setCompleted_setTitle_title, setCompleted_setTitle_completed, setCompleted_setTitle_id,
    setCompleted_setTitle_isNew, setCompleted_setTitle_modified, hs, hne, if_false,
    init_id, init_isNew, Option.some.injEq]
  by_cases hsame : s = t.title ∧ body.completed.truthy = t.completed
  · simp [hsame, thenRedirect, redirected, Exchange.start, Exchange.redirect]
  · simp [hsame, hid, thenRedirect, redirected, Exchange.start, Exchange.redirect]

theorem updateRoute_invalid {db : Store} {i : ObjectId} {t : Todo} (body : Body) (now : Nat)
    (hf : db.lookup i = some t) (hs : body.title.castString.getD "" = "") :
    updateRoute (.oid i) body now db = (db, forwarded (.validation "title")) := by
  simp only [updateRoute, updateFirst, findById, castId, hf, save,
    setCompleted_setTitle_title]
  cases hc : body.title.castString with
  | none => simp [thenRedirect, forwarded, Exchange.start, Exchange.next]
  | some s =>
    have : s = "" := by simpa [hc] using hs
    simp [this, thenRedirect, forwarded, Exchange.start, Exchange.next]

theorem createRoute_valid {db : Store} (body : Body) (oid : ObjectId) (now : Nat) {s : String}
    (hs : body.title.castString = some s) (hne : s ≠ "") (hfresh : ∀ t ∈ db, t.id ≠ oid) :
    createRoute body oid now db = (db.insertOne oid s body.completed.truthy now, redirected) := by
  have hb : (if body.completed.truthy = true then true else false) = body.completed.truthy := by
    cases body.completed.truthy <;> rfl
  have hany : db.any (fun t => decide (t.id = oid)) = false := by
    rw [List.any_eq_false]
    intro t ht
    simpa using hfresh t ht
  simp [createRoute, Doc.create, save, hs, hne, hb, hany, redirected, Exchange.start,
    Exchange.redirect]

theorem createRoute_invalid (db : Store) (body : Body) (oid : ObjectId) (now : Nat)
    (hs : body.title.castString.getD "" = "") :
    createRoute body oid now db = (db, forwarded (.validation "title")) := by
  simp only [createRoute, Doc.create, save]
  cases hc : body.title.castString with
  | none => simp [forwarded, Exchange.start, Exchange.next]
  | some s =>
    have : s = "" := by simpa [hc] using hs
    simp [this, forwarded, Exchange.start, Exchange.next]

theorem lookup_insertOne_fresh {db : Store} {oid : ObjectId} (s : String) (c : Bool) (now : Nat)
    (hfresh : ∀ t ∈ db, t.id ≠ oid) :
    (db.insertOne oid s c now).lookup oid =
      some { id := oid, title := s, completed := c, createdAt := now, updatedAt := now } := by
  have hnone : db.lookup oid = none := lookup_eq_none.2 hfresh
  unfold Store.lookup at hnone
  simp [Store.insertOne, Store.lookup, List.find?_append, hnone]

theorem eraseP_eq_filter {db : Store} (i : ObjectId) (hu : UniqueIds db) :
    db.eraseP (fun t => decide (t.id = i)) = db.filter (fun t => decide (t.id ≠ i)) := by
  induction db with
  | nil => rfl
  | cons a db ih =>
    have hnd : a.id ∉ db.map Todo.id ∧ (db.map Todo.id).Nodup := List.nodup_cons.1 hu
    by_cases h : a.id = i
    · have hall : ∀ t ∈ db, t.id ≠ i := by
        intro t ht e
        exact hnd.1 (h.trans e.symm ▸ List.mem_map_of_mem Todo.id ht)
      simp only [List.eraseP_cons, List.filter_cons, h, decide_True, cond_true, ne_eq,
        not_true_eq_false, decide_False, Bool.false_eq_true, if_false]
      symm
      rw [List.filter_eq_self]
      intro t ht
      simpa using hall t ht
    · simp only [List.eraseP_cons, List.filter_cons, h, decide_False, ne_eq, not_false_eq_true,
        decide_True, if_true]
      simpa using ih hnd.2

theorem destroyRoute_oid (i : ObjectId) (db : Store) :
    destroyRoute (.oid i) db = (db.eraseP (fun t => decide (t.id = i)), redirected) := by
  simp [destroyRoute, findByIdAndRemove, castId, redirected, Exchange.start, Exchange.redirect]

/-! ## Reading routes -/

instance : IsTotal Todo newestFirst := ⟨fun a b => Nat.le_total b.createdAt a.createdAt⟩

instance : IsTrans Todo newestFirst := ⟨fun _ _ _ hab hbc => Nat.le_trans hbc hab⟩

theorem showRoute_oid (i : ObjectId) (db : Store) :
    showRoute (.oid i) db =
      (db, match db.lookup i with
        | some t => { statusCode := 200, calls := [.render "todos/show" (.todo t)] }
        | none => { statusCode := 404, calls := [.next notFound] }) := by
  cases h : db.lookup i <;>
    simp [showRoute, findById, castId, h, makeError, notFound, Exchange.start, Exchange.next,
      Exchange.render]

theorem editRoute_oid (i : ObjectId) (db : Store) :
    editRoute (.oid i) db =
      (db, match db.lookup i with
        | some t => { statusCode := 200, calls := [.render "todos/edit" (.todo t)] }
        | none => { statusCode := 404, calls := [.next notFound] }) := by
  cases h : db.lookup i <;>
    simp [editRoute, findById, castId, h, makeError, notFound, Exchange.start, Exchange.next,
      Exchange.render]

theorem lookup_isSome (db : Store) (i : ObjectId) :
    (db.lookup i).isSome = true ↔ ∃ t ∈ db, t.id = i := by
  cases h : db.lookup i with
  | none =>
    have := lookup_eq_none.1 h
    simp only [Option.isSome_none, Bool.false_eq_true, false_iff, not_exists, not_and]
    exact fun t ht => this t ht
  | some t => simpa using ⟨t, (lookup_some h).2, (lookup_some h).1⟩

/-! ## Invariants of the store -/

theorem save_schemaValid (db : Store) (doc : Doc) (now : Nat) (hv : SchemaValid db) :
    SchemaValid (save db doc now).2 := by
  unfold save
  split
  · exact hv
  · rename_i title _
    by_cases h1 : title = ""
    · simpa [h1] using hv
    · by_cases h2 : doc.isNew = true
      · by_cases h3 : db.any (fun t => decide (t.id = doc.id)) = true
        · simpa [h1, h2, h3] using hv
        · simp only [h1, h2, h3, if_false, if_true, Bool.false_eq_true, Store.insertOne]
          intro t ht
          rcases List.mem_append.1 ht with h | h
          · exact hv t h
          · rw [List.mem_singleton.1 h]; exact h1
      · by_cases h3 : doc.modified = true
        · simp only [h1, h2, h3, if_false, if_true, Bool.false_eq_true, Store.updateOne]
          intro t ht
          obtain ⟨r, hr, rfl⟩ := List.mem_map.1 ht
          by_cases h4 : r.id = doc.id
          · simpa [h4] using h1
          · simpa [h4] using hv r hr
        · simpa [h1, h2, h3] using hv

theorem save_uniqueIds (db : Store) (doc : Doc) (now : Nat) (hu : UniqueIds db) :
    UniqueIds (save db doc now).2 := by
  unfold save
  split
  · exact hu
  · rename_i title _
    by_cases h1 : title = ""
    · simpa [h1] using hu
    · by_cases h2 : doc.isNew = true
      · by_cases h3 : db.any (fun t => decide (t.id = doc.id)) = true
        · simpa [h1, h2, h3] using hu
        · simp only [h1, h2, h3, if_false, if_true, Bool.false_eq_true, Store.insertOne, UniqueIds,
            List.map_append,
            List.map_cons, List.map_nil]
          have hfresh : doc.id ∉ db.map Todo.id := by
            intro hm
            obtain ⟨r, hr, hid⟩ := List.mem_map.1 hm
            exact h3 (List.any_eq_true.2 ⟨r, hr, by simpa using hid⟩)
          rw [List.nodup_append]
          refine ⟨hu, List.nodup_singleton _, ?_⟩
          intro a ha hb
          rw [List.mem_singleton] at hb
          exact hfresh (hb ▸ ha)
      · by_cases h3 : doc.modified = true
        · simp only [h1, h2, h3, if_false, if_true, Bool.false_eq_true, UniqueIds, map_id_updateOne]
          exact hu
        · simpa [h1, h2, h3] using hu

theorem updateRoute_store (id : IdParam) (body : Body) (now : Nat) (db : Store) :
    (updateRoute id body now db).1 = db ∨
      ∃ doc, (updateRoute id body now db).1 = (save db doc now).2 := by
  cases id with
  | uncastable raw => left; rw [updateRoute_uncastable]
  | oid i =>
    cases hf : db.lookup i with
    | none => left; rw [updateRoute_missing body now hf]
    | some t =>
      right
      refine ⟨((Doc.init t).setTitle body.title).setCompleted
        (if body.completed.truthy then true else false), ?_⟩
      simp only [updateRoute, updateFirst, findById, castId, hf]
      generalize save db _ now = r
      rcases r with ⟨_ | _, _⟩ <;> rfl

theorem toggleRoute_store (id : IdParam) (now : Nat) (db : Store) :
    (toggleRoute id now db).1 = db ∨ ∃ doc, (toggleRoute id now db).1 = (save db doc now).2 := by
  cases id with
  | uncastable raw => left; rw [toggleRoute_uncastable]
  | oid i =>
    cases hf : db.lookup i with
    | none => left; rw [toggleRoute_missing now hf]
    | some t =>
      right
      refine ⟨(Doc.init t).setCompleted (!(Doc.init t).completed), ?_⟩
      simp only [toggleRoute, toggleFirst, findById, castId, hf]
      generalize save db _ now = r
      rcases r with ⟨_ | _, _⟩ <;> rfl

theorem createRoute_store (body : Body) (oid : ObjectId) (now : Nat) (db : Store) :
    ∃ doc, (createRoute body oid now db).1 = (save db doc now).2 := by
  refine ⟨Doc.create oid body.title (if body.completed.truthy then true else false), ?_⟩
  simp only [createRoute]
  generalize save db _ now = r
  rcases r with ⟨_ | _, _⟩ <;> rfl

theorem destroyRoute_store (id : IdParam) (db : Store) :
    (destroyRoute id db).1 = db ∨
      ∃ i, (destroyRoute id db).1 = db.eraseP (fun t => decide (t.id = i)) := by
  cases id with
  | uncastable raw => left; rfl
  | oid i => right; exact ⟨i, by rw [destroyRoute_oid]⟩

theorem readRoutes_store (id : IdParam) (db : Store) :
    (indexRoute db).1 = db ∧ (newRoute db).1 = db ∧ (showRoute id db).1 = db ∧
      (editRoute id db).1 = db := by
  refine ⟨rfl, rfl, ?_, ?_⟩
  · cases id with
    | uncastable raw => rfl
    | oid i => rw [showRoute_oid]
  · cases id with
    | uncastable raw => rfl
    | oid i => rw [editRoute_oid]

theorem handle_valid (r : Request) (db : Store) (hu : UniqueIds db) (hv : SchemaValid db) :
    UniqueIds (handle r db).1 ∧ SchemaValid (handle r db).1 := by
  cases r with
  | index => exact ⟨hu, hv⟩
  | new => exact ⟨hu, hv⟩
  | show_ id => simp only [handle, (readRoutes_store id db).2.2.1]; exact ⟨hu, hv⟩
  | edit id => simp only [handle, (readRoutes_store id db).2.2.2]; exact ⟨hu, hv⟩
  | create body oid now =>
    obtain ⟨doc, h⟩ := createRoute_store body oid now db
    simp only [handle, h]
    exact ⟨save_uniqueIds db doc now hu, save_schemaValid db doc now hv⟩
  | update id body now =>
    rcases updateRoute_store id body now db with h | ⟨doc, h⟩
    · simp only [handle, h]; exact ⟨hu, hv⟩
    · simp only [handle, h]
      exact ⟨save_uniqueIds db doc now hu, save_schemaValid db doc now hv⟩
  | toggle id now =>
    rcases toggleRoute_store id now db with h | ⟨doc, h⟩
    · simp only [handle, h]; exact ⟨hu, hv⟩
    · simp only [handle, h]
      exact ⟨save_uniqueIds db doc now hu, save_schemaValid db doc now hv⟩
  | destroy id =>
    rcases destroyRoute_store id db with h | ⟨i, h⟩
    · simp only [handle, h]; exact ⟨hu, hv⟩
    · simp only [handle, h]
      refine ⟨?_, fun t ht => hv t (List.mem_of_mem_eraseP ht)⟩
      exact List.Nodup.sublist ((List.eraseP_sublist db).map Todo.id) hu

theorem run_valid (rs : List Request) (db : Store) (hu : UniqueIds db) (hv : SchemaValid db) :
    UniqueIds (run rs db) ∧ SchemaValid (run rs db) := by
  induction rs generalizing db with
  | nil => exact ⟨hu, hv⟩
  | cons r rs ih =>
    have h := handle_valid r db hu hv
    exact ih (handle r db).1 h.1 h.2

/-! ## The generator stays ahead of the store -/

theorem createRoute_taken {db : Store} (body : Body) (oid : ObjectId) (now : Nat)
    (htaken : ¬ ∀ t ∈ db, t.id ≠ oid) : (createRoute body oid now db).1 = db := by
  have hany : db.any (fun t => decide (t.id = oid)) = true := by
    rw [List.any_eq_true]
    by_contra hno
    exact htaken (fun t ht e => hno ⟨t, ht, by simpa using e⟩)
  simp only [createRoute, Doc.create, save]
  cases body.title.castString with
  | none => rfl
  | some s => by_cases hs : s = "" <;> simp [hs, hany]

theorem mem_updateOne {db : Store} {i : ObjectId} {s : String} {c : Bool} {n : Nat} {r : Todo}
    (hr : r ∈ db.updateOne i s c n) : r ∈ db ∨ (r.id = i ∧ r.title = s ∧ r.completed = c) := by
  obtain ⟨r₀, h₀, rfl⟩ := List.mem_map.1 hr
  by_cases h : r₀.id = i
  · right; simp [h]
  · left; simpa [h] using h₀

theorem updateRoute_ids (id : IdParam) (body : Body) (now : Nat) (db : Store) :
    (updateRoute id body now db).1.map Todo.id = db.map Todo.id := by
  cases id with
  | uncastable raw => rw [updateRoute_uncastable]
  | oid i =>
    cases hf : db.lookup i with
    | none => rw [updateRoute_missing body now hf]
    | some t =>
      cases hc : body.title.castString with
      | none => rw [updateRoute_invalid body now hf (by rw [hc]; rfl)]
      | some s =>
        by_cases hne : s = ""
        · rw [updateRoute_invalid body now hf (by rw [hc]; exact hne)]
        · rw [updateRoute_found body now hf hc hne]
          by_cases hsame : s = t.title ∧ body.completed.truthy = t.completed
          · rw [if_pos hsame]
          · rw [if_neg hsame]; exact map_id_updateOne ..

theorem toggleRoute_ids (id : IdParam) (now : Nat) (db : Store) :
    (toggleRoute id now db).1.map Todo.id = db.map Todo.id := by
  cases id with
  | uncastable raw => rw [toggleRoute_uncastable]
  | oid i =>
    cases hf : db.lookup i with
    | none => rw [toggleRoute_missing now hf]
    | some t =>
      by_cases ht : t.title = ""
      · rw [toggleRoute_invalid now hf ht]
      · rw [toggleRoute_found now hf ht]; exact map_id_updateOne ..

theorem below_of_ids_eq {db db₁ : Store} {n : Nat} (h : db₁.map Todo.id = db.map Todo.id)
    (hb : ∀ t ∈ db, t.id < n) : ∀ t ∈ db₁, t.id < n := by
  intro t ht
  have hm : t.id ∈ db.map Todo.id := h ▸ List.mem_map_of_mem Todo.id ht
  obtain ⟨r, hr, hid⟩ := List.mem_map.1 hm
  exact hid ▸ hb r hr

theorem createRoute_below (body : Body) (now : Nat) (db : Store) (n : Nat)
    (hb : ∀ t ∈ db, t.id < n) : ∀ t ∈ (createRoute body n now db).1, t.id < n + 1 := by
  have hfresh : ∀ t ∈ db, t.id ≠ n := fun t ht => Nat.ne_of_lt (hb t ht)
  have hold : ∀ t ∈ db, t.id < n + 1 := fun t ht => Nat.lt_succ_of_lt (hb t ht)
  cases hc : body.title.castString with
  | none => rw [createRoute_invalid db body n now (by rw [hc]; rfl)]; exact hold
  | some s =>
    by_cases hne : s = ""
    · rw [createRoute_invalid db body n now (by rw [hc]; exact hne)]; exact hold
    · rw [createRoute_valid body n now hc hne hfresh]
      intro t ht
      rcases List.mem_append.1 ht with h | h
      · exact hold t h
      · rw [List.mem_singleton.1 h]; exact Nat.lt_succ_self n

theorem serve_fresh (r : Incoming) (s : Server) (hs : s.Fresh) : (serve r s).1.Fresh := by
  cases r with
  | index => exact hs
  | new => exact hs
  | show_ id =>
    simp only [serve, Server.Fresh, (readRoutes_store id s.store).2.2.1]; exact hs
  | edit id =>
    simp only [serve, Server.Fresh, (readRoutes_store id s.store).2.2.2]; exact hs
  | create body now => exact createRoute_below body now s.store s.nextId hs
  | update id body now => exact below_of_ids_eq (updateRoute_ids id body now s.store) hs
  | toggle id now => exact below_of_ids_eq (toggleRoute_ids id now s.store) hs
  | destroy id =>
    rcases destroyRoute_store id s.store with h | ⟨i, h⟩
    · simp only [serve, Server.Fresh, h]; exact hs
    · simp only [serve, Server.Fresh, h]
      exact fun t ht => hs t (List.mem_of_mem_eraseP ht)

theorem serveAll_fresh (rs : List Incoming) (s : Server) (hs : s.Fresh) :
    (serveAll rs s).Fresh := by
  induction rs generalizing s with
  | nil => exact hs
  | cons r rs ih => exact ih (serve r s).1 (serve_fresh r s hs)

theorem truthy_eq_true (c : JsVal) :
    c.truthy = true ↔ c = .bool true ∨ ∃ x, c = .str x ∧ x ≠ "" := by
  cases c <;> simp [JsVal.truthy]

/-! ## Claims -/

/-- C1 (the code departs from the claim): on a well-formed id that resolves to
no record, UPDATE and TOGGLE set status 404, forward the one error
'Document not found' and leave the store unchanged, and then they also call
`res.redirect('/todos')`: the first `.then` returns the value of `next(...)`,
so the promise fulfils and the second `.then` runs its success callback. -/
theorem missing_id_forwards_then_redirects :
    updateRoute (.oid 7) ⟨.str "milk", .undefined⟩ 5 [⟨1, "groceries", false, 1, 1⟩] =
        ([⟨1, "groceries", false, 1, 1⟩],
          { statusCode := 404,
            calls := [.next (.http "Document not found" 404), .redirect "/todos"] }) ∧
      toggleRoute (.oid 7) 5 [⟨1, "groceries", false, 1, 1⟩] =
        ([⟨1, "groceries", false, 1, 1⟩],
          { statusCode := 404,
            calls := [.next (.http "Document not found" 404), .redirect "/todos"] }) := by
  constructor <;> rfl

/-- C5: for every store, INDEX renders 'todos/index' with a list that is a
permutation of the records of the store (each once, none missing) in which
createdAt never increases from one entry to the next, and forwards nothing;
for the empty store the list is empty. -/
theorem index_renders_all_newest_first (db : Store) :
    ∃ todos : List Todo,
      indexRoute db =
        (db, { statusCode := 200, calls := [.render "todos/index" (.todos todos)] }) ∧
      todos.Perm db ∧
      todos.Pairwise (fun a b => b.createdAt ≤ a.createdAt) ∧
      indexRoute [] = ([], { statusCode := 200, calls := [.render "todos/index" (.todos [])] }) := by
  refine ⟨db.insertionSort newestFirst, ?_, List.perm_insertionSort _ db, ?_, rfl⟩
  · simp [indexRoute, findSorted, Exchange.start, Exchange.render]
  · exact List.sorted_insertionSort newestFirst db

/-- C8, as stated, fails: on a path segment that does not cast to an ObjectId
(here `abc`, on the empty store, where no record has that id) SHOW and EDIT
leave the status at 200 and forward the cast error, not a 404
'Document not found'. -/
theorem show_uncastable_id_is_not_404 :
    showRoute (.uncastable "abc") [] =
        ([], { statusCode := 200, calls := [.next (.cast "abc")] }) ∧
      editRoute (.uncastable "abc") [] =
        ([], { statusCode := 200, calls := [.next (.cast "abc")] }) := by
  constructor <;> rfl

/-- C8, amended: for every store and every well-formed id, SHOW and EDIT render
'todos/show' and 'todos/edit' with the record of that id when the store has
one (and it has one exactly when some record carries the id), and otherwise set
status 404 and forward the error 'Document not found' with status 404 without
rendering; for a segment that does not cast to an id they forward the cast
error of the query without rendering; the store is never changed. -/
theorem show_and_edit_by_id (i : ObjectId) (raw : String) (db : Store) :
    showRoute (.oid i) db =
        (db, match db.lookup i with
          | some t => { statusCode := 200, calls := [.render "todos/show" (.todo t)] }
          | none => { statusCode := 404, calls := [.next (.http "Document not found" 404)] }) ∧
      editRoute (.oid i) db =
        (db, match db.lookup i with
          | some t => { statusCode := 200, calls := [.render "todos/edit" (.todo t)] }
          | none => { statusCode := 404, calls := [.next (.http "Document not found" 404)] }) ∧
      ((db.lookup i).isSome = true ↔ ∃ t ∈ db, t.id = i) ∧
      (∀ t, db.lookup i = some t → t.id = i ∧ t ∈ db) ∧
      showRoute (.uncastable raw) db = (db, { statusCode := 200, calls := [.next (.cast raw)] }) ∧
      editRoute (.uncastable raw) db = (db, { statusCode := 200, calls := [.next (.cast raw)] }) :=
  ⟨showRoute_oid i db, editRoute_oid i db, lookup_isSome db i, fun _ h => lookup_some h,
    rfl, rfl⟩

/-- Witness of C8 (amended): an id that is found and is the record's own. -/
theorem show_and_edit_by_id_witness :
    Store.lookup [⟨1, "groceries", false, 10, 10⟩] 1 = some ⟨1, "groceries", false, 10, 10⟩ ∧
      (⟨1, "groceries", false, 10, 10⟩ : Todo).id = 1 ∧
      (⟨1, "groceries", false, 10, 10⟩ : Todo) ∈ [(⟨1, "groceries", false, 10, 10⟩ : Todo)] :=
  ⟨rfl, (show_and_edit_by_id 1 "abc" [⟨1, "groceries", false, 10, 10⟩]).2.2.2.1
    ⟨1, "groceries", false, 10, 10⟩ rfl⟩

/-- C2: for every store whose records satisfy the schema and every id that
resolves to a record, one run of TOGGLE redirects and leaves the record with
the negated completed value, a second run leaves it with the original value;
the title of the record, the ids of the store and all records with another id
are the same after either run. -/
theorem toggle_twice_restores_completed (db : Store) (i : ObjectId) (t : Todo)
    (now₁ now₂ : Nat) (hv : SchemaValid db) (hf : db.lookup i = some t) :
    ∃ (db₁ db₂ : Store) (t₁ t₂ : Todo),
      toggleRoute (.oid i) now₁ db = (db₁, redirected) ∧
      toggleRoute (.oid i) now₂ db₁ = (db₂, redirected) ∧
      db₁.lookup i = some t₁ ∧ t₁.completed = (!t.completed) ∧ t₁.title = t.title ∧
      db₂.lookup i = some t₂ ∧ t₂.completed = t.completed ∧ t₂.title = t.title ∧
      db₁.map Todo.id = db.map Todo.id ∧ db₂.map Todo.id = db.map Todo.id ∧
      db₁.filter (fun r => decide (r.id ≠ i)) = db.filter (fun r => decide (r.id ≠ i)) ∧
      db₂.filter (fun r => decide (r.id ≠ i)) = db.filter (fun r => decide (r.id ≠ i)) := by
  have ht : t.title ≠ "" := hv t (lookup_some hf).2
  have h1 := toggleRoute_found now₁ hf ht
  have hl1 : (db.updateOne i t.title (!t.completed) now₁).lookup i =
      some { t with title := t.title, completed := !t.completed, updatedAt := now₁ } := by
    rw [lookup_updateOne_self, hf]; rfl
  have h2 := toggleRoute_found now₂ hl1 ht
  simp only [Bool.not_not] at h2
  refine ⟨_, _, _, { t with updatedAt := now₂ }, h1, h2, hl1, rfl, rfl, ?_, rfl, rfl,
    ?_, ?_, ?_, ?_⟩
  · rw [lookup_updateOne_self, hl1]; rfl
  · exact map_id_updateOne ..
  · rw [map_id_updateOne, map_id_updateOne]
  · exact filter_updateOne ..
  · rw [filter_updateOne, filter_updateOne]

/-- Witness of C2 on a one-record store. -/
theorem toggle_twice_restores_completed_witness :
    ∃ (db₁ db₂ : Store) (t₁ t₂ : Todo),
      toggleRoute (.oid 1) 20 [⟨1, "groceries", false, 10, 10⟩] = (db₁, redirected) ∧
      toggleRoute (.oid 1) 30 db₁ = (db₂, redirected) ∧
      db₁.lookup 1 = some t₁ ∧ t₁.completed = (!false) ∧ t₁.title = "groceries" ∧
      db₂.lookup 1 = some t₂ ∧ t₂.completed = false ∧ t₂.title = "groceries" ∧
      db₁.map Todo.id = [1] ∧ db₂.map Todo.id = [1] ∧
      db₁.filter (fun r => decide (r.id ≠ 1)) = [] ∧
      db₂.filter (fun r => decide (r.id ≠ 1)) = [] :=
  toggle_twice_restores_completed [⟨1, "groceries", false, 10, 10⟩] 1
    ⟨1, "groceries", false, 10, 10⟩ 20 30 (by decide) rfl

/-- C3, as stated, fails for the empty title: UPDATE of an existing record
with title '' forwards the validation error of the required path, does not
redirect, and the record keeps its title. -/
theorem update_with_empty_title_is_refused :
    updateRoute (.oid 1) ⟨.str "", .str "on"⟩ 20 [⟨1, "groceries", false, 10, 10⟩] =
      ([⟨1, "groceries", false, 10, 10⟩],
        { statusCode := 200, calls := [.next (.validation "title")] }) := by
  rfl

/-- C3, amended: for every store, every id that resolves to a record, every
non-empty title t and every completed field c of the body, UPDATE redirects to
'/todos', a lookup of the id then yields a record with title t and completed
equal to the truthiness of c, and the ids of the store and all records with
another id are unchanged. -/
theorem update_then_lookup (db : Store) (i : ObjectId) (old : Todo) (t : String) (c : JsVal)
    (now : Nat) (hf : db.lookup i = some old) (ht : t ≠ "") :
    ∃ (db₁ : Store) (r : Todo),
      updateRoute (.oid i) ⟨.str t, c⟩ now db =
        (db₁, { statusCode := 200, calls := [.redirect "/todos"] }) ∧
      db₁.lookup i = some r ∧ r.title = t ∧ r.completed = c.truthy ∧
      db₁.map Todo.id = db.map Todo.id ∧
      db₁.filter (fun r => decide (r.id ≠ i)) = db.filter (fun r => decide (r.id ≠ i)) := by
  have h := @updateRoute_found db i old ⟨.str t, c⟩ now t hf rfl ht
  by_cases hsame : t = old.title ∧ c.truthy = old.completed
  · rw [if_pos hsame] at h
    exact ⟨db, old, h, hf, hsame.1.symm, hsame.2.symm, rfl, rfl⟩
  · rw [if_neg hsame] at h
    refine ⟨_, { old with title := t, completed := c.truthy, updatedAt := now }, h, ?_, rfl, rfl,
      map_id_updateOne .., filter_updateOne ..⟩
    rw [lookup_updateOne_self, hf]; rfl

/-- Witness of C3 (amended) on a one-record store. -/
theorem update_then_lookup_witness :
    ∃ (db₁ : Store) (r : Todo),
      updateRoute (.oid 1) ⟨.str "milk", .bool true⟩ 20 [⟨1, "groceries", false, 10, 10⟩] =
        (db₁, { statusCode := 200, calls := [.redirect "/todos"] }) ∧
      db₁.lookup 1 = some r ∧ r.title = "milk" ∧ r.completed = (JsVal.bool true).truthy ∧
      db₁.map Todo.id = [1] ∧
      db₁.filter (fun r => decide (r.id ≠ 1)) = [] :=
  update_then_lookup [⟨1, "groceries", false, 10, 10⟩] 1 ⟨1, "groceries", false, 10, 10⟩
    "milk" (.bool true) 20 rfl (by decide)

/-- C4, as stated, fails for a path segment that does not cast to an ObjectId:
DESTROY on `abc` forwards the cast error of the query and does not redirect. -/
theorem destroy_uncastable_id_does_not_redirect :
    destroyRoute (.uncastable "abc") [⟨1, "groceries", false, 10, 10⟩] =
      ([⟨1, "groceries", false, 10, 10⟩],
        { statusCode := 200, calls := [.next (.cast "abc")] }) := by
  rfl

/-- C4, amended: for every store with unique ids and every well-formed id,
whether or not a record exists at it, DESTROY redirects to '/todos'; a second
run redirects again and gives the same store as one run; after either run SHOW
of that id reports 404 'Document not found'; the store after DESTROY consists
of the records with another id, unchanged and in order; on no id at all does
DESTROY forward an error built by `makeError`; and on a segment that does not
cast to an id it forwards the cast error, without redirect or change. -/
theorem destroy_is_idempotent (db : Store) (i : ObjectId) (hu : UniqueIds db) :
    ∃ db₁ : Store,
      destroyRoute (.oid i) db = (db₁, { statusCode := 200, calls := [.redirect "/todos"] }) ∧
      destroyRoute (.oid i) db₁ = (db₁, { statusCode := 200, calls := [.redirect "/todos"] }) ∧
      showRoute (.oid i) db₁ =
        (db₁, { statusCode := 404, calls := [.next (.http "Document not found" 404)] }) ∧
      db₁ = db.filter (fun r => decide (r.id ≠ i)) ∧
      (∀ (id : IdParam) (msg : String) (status : Nat),
        Call.next (.http msg status) ∉ (destroyRoute id db).2.calls) ∧
      ∀ raw : String,
        destroyRoute (.uncastable raw) db =
          (db, { statusCode := 200, calls := [.next (.cast raw)] }) := by
  have hnone : Store.lookup (db.filter (fun r => decide (r.id ≠ i))) i = none := by
    rw [lookup_eq_none]
    intro t ht
    simpa using (List.mem_filter.1 ht).2
  have hagain : (db.filter (fun r => decide (r.id ≠ i))).eraseP (fun t => decide (t.id = i)) =
      db.filter (fun r => decide (r.id ≠ i)) := by
    apply List.eraseP_of_forall_not
    intro t ht
    simpa using (List.mem_filter.1 ht).2
  refine ⟨db.filter (fun r => decide (r.id ≠ i)), ?_, ?_, ?_, rfl, ?_, fun _ => rfl⟩
  · rw [destroyRoute_oid, eraseP_eq_filter i hu]; rfl
  · rw [destroyRoute_oid, hagain]; rfl
  · rw [showRoute_oid, hnone]; rfl
  · intro id msg status
    cases id <;>
      simp [destroyRoute, findByIdAndRemove, castId, Exchange.start, Exchange.redirect,
        Exchange.next]

/-- Witness of C4 (amended) on a two-record store. -/
theorem destroy_is_idempotent_witness :
    ∃ db₁ : Store,
      destroyRoute (.oid 1) [⟨1, "groceries", false, 10, 10⟩, ⟨2, "feed the cat", true, 11, 11⟩] =
        (db₁, { statusCode := 200, calls := [.redirect "/todos"] }) ∧
      destroyRoute (.oid 1) db₁ = (db₁, { statusCode := 200, calls := [.redirect "/todos"] }) ∧
      showRoute (.oid 1) db₁ =
        (db₁, { statusCode := 404, calls := [.next (.http "Document not found" 404)] }) ∧
      db₁ = List.filter (fun r => decide (r.id ≠ 1))
        [⟨1, "groceries", false, 10, 10⟩, ⟨2, "feed the cat", true, 11, 11⟩] ∧
      (∀ (id : IdParam) (msg : String) (status : Nat),
        Call.next (.http msg status) ∉
          (destroyRoute id
            [⟨1, "groceries", false, 10, 10⟩, ⟨2, "feed the cat", true, 11, 11⟩]).2.calls) ∧
      ∀ raw : String,
        destroyRoute (.uncastable raw)
            [⟨1, "groceries", false, 10, 10⟩, ⟨2, "feed the cat", true, 11, 11⟩] =
          ([⟨1, "groceries", false, 10, 10⟩, ⟨2, "feed the cat", true, 11, 11⟩],
            { statusCode := 200, calls := [.next (.cast raw)] }) :=
  destroy_is_idempotent [⟨1, "groceries", false, 10, 10⟩, ⟨2, "feed the cat", true, 11, 11⟩] 1
    (by decide)

theorem serve_create_valid (s : Server) (t : String) (c : JsVal) (now : Nat)
    (ht : t ≠ "") (hs : s.Fresh) :
    ∃ r : Todo,
      serve (.create ⟨.str t, c⟩ now) s =
        ({ store := s.store ++ [r], nextId := s.nextId + 1 },
          { statusCode := 200, calls := [.redirect "/todos"] }) ∧
      r.title = t ∧
      (r.completed = true ↔ c = .bool true ∨ ∃ x, c = .str x ∧ x ≠ "") ∧
      r.createdAt = r.updatedAt ∧
      (∀ old ∈ s.store, old.id ≠ r.id) ∧
      s.store.lookup r.id = none ∧
      Store.lookup (s.store ++ [r]) r.id = some r ∧
      Server.Fresh { store := s.store ++ [r], nextId := s.nextId + 1 } := by
  have hfresh : ∀ old ∈ s.store, old.id ≠ s.nextId := fun old ho => Nat.ne_of_lt (hs old ho)
  have hrun := @createRoute_valid s.store ⟨.str t, c⟩ s.nextId now t rfl ht hfresh
  have hnext := serve_fresh (.create ⟨.str t, c⟩ now) s hs
  refine ⟨⟨s.nextId, t, c.truthy, now, now⟩, ?_, rfl, truthy_eq_true c, rfl, hfresh,
    lookup_eq_none.2 hfresh, lookup_insertOne_fresh t c.truthy now hfresh, ?_⟩
  · simp only [serve, hrun]; rfl
  · simpa only [serve, hrun] using hnext

/-- C6: for every body with a non-empty title t and any completed field c,
CREATE redirects to '/todos' and the store becomes the old records, unchanged,
followed by exactly one new record; that record carries an id that no record of
the store carried, title t, completed true exactly when c is the value true or
a non-empty string, and createdAt equal to updatedAt; a lookup of its id found
nothing before and yields the record afterwards.  This holds in every server
state in which the id generator is ahead of the store, and every state reached
from the empty store by any sequence of requests is such a state, so it holds
there without any assumption on the ids. -/
theorem create_persists_one_record (s : Server) (t : String) (c : JsVal) (now : Nat)
    (ht : t ≠ "") (hs : s.Fresh) :
    (∃ r : Todo,
      serve (.create ⟨.str t, c⟩ now) s =
        ({ store := s.store ++ [r], nextId := s.nextId + 1 },
          { statusCode := 200, calls := [.redirect "/todos"] }) ∧
      r.title = t ∧
      (r.completed = true ↔ c = .bool true ∨ ∃ x, c = .str x ∧ x ≠ "") ∧
      r.createdAt = r.updatedAt ∧
      (∀ old ∈ s.store, old.id ≠ r.id) ∧
      s.store.lookup r.id = none ∧
      Store.lookup (s.store ++ [r]) r.id = some r ∧
      Server.Fresh { store := s.store ++ [r], nextId := s.nextId + 1 }) ∧
      (∀ (rs : List Incoming) (n : ObjectId),
        (serveAll rs { store := [], nextId := n }).Fresh) ∧
      ∀ (rs : List Incoming) (n : ObjectId),
        ∃ r : Todo,
          serve (.create ⟨.str t, c⟩ now) (serveAll rs { store := [], nextId := n }) =
            ({ store := (serveAll rs { store := [], nextId := n }).store ++ [r],
               nextId := (serveAll rs { store := [], nextId := n }).nextId + 1 },
              { statusCode := 200, calls := [.redirect "/todos"] }) ∧
          r.title = t ∧
          (r.completed = true ↔ c = .bool true ∨ ∃ x, c = .str x ∧ x ≠ "") ∧
          r.createdAt = r.updatedAt ∧
          (∀ old ∈ (serveAll rs { store := [], nextId := n }).store, old.id ≠ r.id) ∧
          Store.lookup (serveAll rs { store := [], nextId := n }).store r.id = none ∧
          Store.lookup ((serveAll rs { store := [], nextId := n }).store ++ [r]) r.id =
            some r := by
  have hreach : ∀ (rs : List Incoming) (n : ObjectId),
      (serveAll rs { store := [], nextId := n }).Fresh :=
    fun rs n => serveAll_fresh rs _ (fun _ h => nomatch h)
  refine ⟨serve_create_valid s t c now ht hs, hreach, ?_⟩
  intro rs n
  obtain ⟨r, h1, h2, h3, h4, h5, h6, h7, _⟩ := serve_create_valid _ t c now ht (hreach rs n)
  exact ⟨r, h1, h2, h3, h4, h5, h6, h7⟩

/-- Witness of C6: a checked box after the seed record, with the stored
completed value spelled out. -/
theorem create_persists_one_record_witness :
    ∃ r : Todo,
      serve (.create ⟨.str "feed the cat", .str "on"⟩ 11)
          { store := [⟨1, "groceries", false, 10, 10⟩], nextId := 2 } =
        ({ store := [⟨1, "groceries", false, 10, 10⟩] ++ [r], nextId := 2 + 1 },
          { statusCode := 200, calls := [.redirect "/todos"] }) ∧
      r.title = "feed the cat" ∧ r.completed = true ∧ r.createdAt = r.updatedAt ∧
      Store.lookup [⟨1, "groceries", false, 10, 10⟩] r.id = none ∧
      Store.lookup ([⟨1, "groceries", false, 10, 10⟩] ++ [r]) r.id = some r := by
  obtain ⟨r, h, ht, hc, hd, _, hn, hl, _⟩ :=
    (create_persists_one_record { store := [⟨1, "groceries", false, 10, 10⟩], nextId := 2 }
      "feed the cat" (.str "on") 11 (by decide) (by decide)).1
  exact ⟨r, h, ht, hc.2 (Or.inr ⟨"on", rfl, by decide⟩), hd, hn, hl⟩

/-- C7: CREATE with a missing or empty title forwards the validation error of
the path `title` and persists nothing; UPDATE with a missing or empty title
forwards an error (the validation error when the id resolves to a record) and
leaves the store unchanged; and in every store reached from the empty store by
any sequence of requests every record has a non-empty title. -/
theorem title_is_never_persisted_empty :
    (∀ (db : Store) (v c : JsVal) (oid now : Nat),
        v = .undefined ∨ v = .null ∨ v = .str "" →
        createRoute ⟨v, c⟩ oid now db =
          (db, { statusCode := 200, calls := [.next (.validation "title")] })) ∧
      (∀ (db : Store) (id : IdParam) (v c : JsVal) (now : Nat),
        v = .undefined ∨ v = .null ∨ v = .str "" →
        (updateRoute id ⟨v, c⟩ now db).1 = db ∧
          (∃ err, Call.next err ∈ (updateRoute id ⟨v, c⟩ now db).2.calls) ∧
          ∀ (i : ObjectId) (t : Todo), id = .oid i → db.lookup i = some t →
            updateRoute id ⟨v, c⟩ now db =
              (db, { statusCode := 200, calls := [.next (.validation "title")] })) ∧
      ∀ (rs : List Request), ∀ t ∈ run rs [], t.title ≠ "" := by
  have hblank : ∀ v : JsVal, v = .undefined ∨ v = .null ∨ v = .str "" →
      v.castString.getD "" = "" := by
    rintro v (rfl | rfl | rfl) <;> rfl
  refine ⟨?_, ?_, ?_⟩
  · intro db v c oid now hv
    exact createRoute_invalid db ⟨v, c⟩ oid now (hblank v hv)
  · intro db id v c now hv
    cases id with
    | uncastable raw =>
      rw [updateRoute_uncastable]
      exact ⟨rfl, ⟨.cast raw, by simp [forwarded]⟩, fun i t h => by cases h⟩
    | oid i =>
      cases hf : db.lookup i with
      | none =>
        rw [updateRoute_missing _ now hf]
        exact ⟨rfl, ⟨notFound, by simp⟩, fun j t h hj => by cases h; rw [hf] at hj; cases hj⟩
      | some t =>
        rw [updateRoute_invalid ⟨v, c⟩ now hf (hblank v hv)]
        exact ⟨rfl, ⟨.validation "title", by simp [forwarded]⟩, fun _ _ _ _ => rfl⟩
  · intro rs
    exact (run_valid rs [] List.nodup_nil (fun _ h => nomatch h)).2

/-- Witness of C7: CREATE with the empty title on the empty store. -/
theorem title_is_never_persisted_empty_witness :
    createRoute ⟨.str "", .str "on"⟩ 1 10 [] =
      ([], { statusCode := 200, calls := [.next (.validation "title")] }) :=
  title_is_never_persisted_empty.1 [] (.str "") (.str "on") 1 10 (Or.inr (Or.inr rfl))

/-- C9, as stated, fails: a completed field that is present with the empty
string, or with the value false, is stored as false by CREATE and by UPDATE. -/
theorem present_completed_field_can_store_false :
    (createRoute ⟨.str "groceries", .str ""⟩ 1 10 []).1 =
        [⟨1, "groceries", false, 10, 10⟩] ∧
      (createRoute ⟨.str "groceries", .bool false⟩ 1 10 []).1 =
        [⟨1, "groceries", false, 10, 10⟩] ∧
      (updateRoute (.oid 1) ⟨.str "groceries", .str ""⟩ 20 [⟨1, "groceries", true, 10, 10⟩]).1 =
        [⟨1, "groceries", false, 10, 20⟩] := by
  refine ⟨?_, ?_, ?_⟩ <;> rfl

/-- C9, amended: for every store and every request body, whatever CREATE or
UPDATE writes carries as completed the truthiness of the body's completed
field, a boolean that is true exactly when the field is the value true or a
non-empty string and false when the field is absent; and when the title
passes validation the value is indeed stored: by CREATE under any generated id
that is not taken (on the empty store too), by UPDATE at any id that resolves
to a record. -/
theorem completed_is_stored_as_truthiness (db : Store) (body : Body) (now : Nat) :
    (∀ (oid : ObjectId) (s : String), body.title.castString = some s → s ≠ "" →
        (∀ r ∈ db, r.id ≠ oid) →
        ∃ r, Store.lookup (createRoute body oid now db).1 oid = some r ∧
          r.completed = body.completed.truthy) ∧
      (∀ (i : ObjectId) (old : Todo) (s : String), body.title.castString = some s → s ≠ "" →
        db.lookup i = some old →
        ∃ r, Store.lookup (updateRoute (.oid i) body now db).1 i = some r ∧
          r.completed = body.completed.truthy) ∧
      (∀ (oid : ObjectId), ∀ r ∈ (createRoute body oid now db).1,
        r ∈ db ∨ r.completed = body.completed.truthy) ∧
      (∀ (id : IdParam), ∀ r ∈ (updateRoute id body now db).1,
        r ∈ db ∨ r.completed = body.completed.truthy) ∧
      (body.completed.truthy = true ↔
        body.completed = .bool true ∨ ∃ x, body.completed = .str x ∧ x ≠ "") ∧
      (body.completed = .undefined → body.completed.truthy = false) := by
  refine ⟨?_, ?_, ?_, ?_, truthy_eq_true _, fun h => by rw [h]; rfl⟩
  · intro oid s hs hne hfresh
    rw [createRoute_valid body oid now hs hne hfresh]
    exact ⟨_, lookup_insertOne_fresh s body.completed.truthy now hfresh, rfl⟩
  · intro i old s hs hne hf
    rw [updateRoute_found body now hf hs hne]
    by_cases hsame : s = old.title ∧ body.completed.truthy = old.completed
    · rw [if_pos hsame]
      exact ⟨old, hf, hsame.2.symm⟩
    · rw [if_neg hsame]
      refine ⟨{ old with title := s, completed := body.completed.truthy, updatedAt := now }, ?_,
        rfl⟩
      simp only [lookup_updateOne_self, hf, Option.map_some']
  · intro oid r hr
    by_cases hfresh : ∀ t ∈ db, t.id ≠ oid
    · cases hc : body.title.castString with
      | none =>
        rw [createRoute_invalid db body oid now (by rw [hc]; rfl)] at hr
        exact Or.inl hr
      | some s =>
        by_cases hne : s = ""
        · rw [createRoute_invalid db body oid now (by rw [hc]; exact hne)] at hr
          exact Or.inl hr
        · rw [createRoute_valid body oid now hc hne hfresh] at hr
          rcases List.mem_append.1 hr with h | h
          · exact Or.inl h
          · right; rw [List.mem_singleton.1 h]
    · rw [createRoute_taken body oid now hfresh] at hr
      exact Or.inl hr
  · intro id r hr
    cases id with
    | uncastable raw => rw [updateRoute_uncastable] at hr; exact Or.inl hr
    | oid i =>
      cases hf : db.lookup i with
      | none => rw [updateRoute_missing body now hf] at hr; exact Or.inl hr
      | some t =>
        cases hc : body.title.castString with
        | none =>
          rw [updateRoute_invalid body now hf (by rw [hc]; rfl)] at hr
          exact Or.inl hr
        | some s =>
          by_cases hne : s = ""
          · rw [updateRoute_invalid body now hf (by rw [hc]; exact hne)] at hr
            exact Or.inl hr
          · rw [updateRoute_found body now hf hc hne] at hr
            by_cases hsame : s = t.title ∧ body.completed.truthy = t.completed
            · rw [if_pos hsame] at hr; exact Or.inl hr
            · rw [if_neg hsame] at hr
              rcases mem_updateOne hr with h | h
              · exact Or.inl h
              · exact Or.inr h.2.2

/-- Witness of C9 (amended): the checkbox value `on` is stored as true by a
first CREATE on the empty store and by an UPDATE of the seed record. -/
theorem completed_is_stored_as_truthiness_witness :
    (∃ r, Store.lookup (createRoute ⟨.str "milk", .str "on"⟩ 1 10 []).1 1 = some r ∧
        r.completed = true) ∧
      ∃ r, Store.lookup
          (updateRoute (.oid 1) ⟨.str "milk", .str "on"⟩ 11
            [⟨1, "groceries", false, 10, 10⟩]).1 1 = some r ∧
        r.completed = true :=
  ⟨(completed_is_stored_as_truthiness [] ⟨.str "milk", .str "on"⟩ 10).1 1 "milk" rfl
      (by decide) (fun _ h => nomatch h),
    (completed_is_stored_as_truthiness [⟨1, "groceries", false, 10, 10⟩]
      ⟨.str "milk", .str "on"⟩ 11).2.1 1 ⟨1, "groceries", false, 10, 10⟩ "milk" rfl
      (by decide) rfl⟩

/-- C10, as stated, fails: an UPDATE that succeeds (it redirects) with title
and completed equal to the current ones modifies nothing, so nothing is
written and updatedAt stays at its previous value although the clock has
advanced. -/
theorem update_with_current_values_keeps_updatedAt :
    updateRoute (.oid 1) ⟨.str "groceries", .undefined⟩ 20 [⟨1, "groceries", false, 10, 10⟩] =
      ([⟨1, "groceries", false, 10, 10⟩],
        { statusCode := 200, calls := [.redirect "/todos"] }) := by
  rfl

/-- C10, amended: for every store whose records satisfy the schema, every id
that resolves to a record and a clock reading later than the record's
updatedAt, a TOGGLE, and an UPDATE with a valid title that changes title or
completed, redirect and leave the record with updatedAt equal to the clock
reading, hence strictly greater than before; an UPDATE with the current values
leaves updatedAt as it was; in every case createdAt is unchanged and
updatedAt >= createdAt is preserved. -/
theorem mutation_refreshes_updatedAt (db : Store) (i : ObjectId) (old : Todo) (body : Body)
    (s : String) (now : Nat) (hv : SchemaValid db) (hf : db.lookup i = some old)
    (hclock : old.updatedAt < now) (hinv : old.createdAt ≤ old.updatedAt)
    (hs : body.title.castString = some s) (hne : s ≠ "") :
    (∃ (db₁ : Store) (r : Todo),
        toggleRoute (.oid i) now db = (db₁, redirected) ∧ db₁.lookup i = some r ∧
        r.updatedAt = now ∧ old.updatedAt < r.updatedAt ∧
        r.createdAt = old.createdAt ∧ r.createdAt ≤ r.updatedAt) ∧
      ∃ (db₂ : Store) (r : Todo),
        updateRoute (.oid i) body now db = (db₂, redirected) ∧ db₂.lookup i = some r ∧
        r.updatedAt =
          (if s = old.title ∧ body.completed.truthy = old.completed then old.updatedAt
            else now) ∧
        (¬ (s = old.title ∧ body.completed.truthy = old.completed) →
          old.updatedAt < r.updatedAt) ∧
        r.createdAt = old.createdAt ∧ r.createdAt ≤ r.updatedAt := by
  have ht : old.title ≠ "" := hv old (lookup_some hf).2
  constructor
  · refine ⟨_, { old with completed := !old.completed, updatedAt := now },
      toggleRoute_found now hf ht, ?_, rfl, hclock, rfl, ?_⟩
    · rw [lookup_updateOne_self, hf]; rfl
    · exact Nat.le_trans hinv (Nat.le_of_lt hclock)
  · have h := updateRoute_found body now hf hs hne
    by_cases hsame : s = old.title ∧ body.completed.truthy = old.completed
    · rw [if_pos hsame] at h
      exact ⟨db, old, h, hf, by rw [if_pos hsame], fun hn => absurd hsame hn, rfl, hinv⟩
    · rw [if_neg hsame] at h
      refine ⟨_, { old with title := s, completed := body.completed.truthy, updatedAt := now },
        h, ?_, by rw [if_neg hsame], fun _ => hclock, rfl, ?_⟩
      · rw [lookup_updateOne_self, hf]; rfl
      · exact Nat.le_trans hinv (Nat.le_of_lt hclock)

/-- Witness of C10 (amended): toggling and retitling the seed record. -/
theorem mutation_refreshes_updatedAt_witness :
    (∃ (db₁ : Store) (r : Todo),
        toggleRoute (.oid 1) 20 [⟨1, "groceries", false, 10, 10⟩] = (db₁, redirected) ∧
        db₁.lookup 1 = some r ∧ r.updatedAt = 20 ∧ 10 < r.updatedAt ∧
        r.createdAt = 10 ∧ r.createdAt ≤ r.updatedAt) ∧
      ∃ (db₂ : Store) (r : Todo),
        updateRoute (.oid 1) ⟨.str "milk", .undefined⟩ 20 [⟨1, "groceries", false, 10, 10⟩] =
          (db₂, redirected) ∧
        db₂.lookup 1 = some r ∧
        r.updatedAt = (if "milk" = "groceries" ∧ JsVal.undefined.truthy = false then 10 else 20) ∧
        (¬ ("milk" = "groceries" ∧ JsVal.undefined.truthy = false) → 10 < r.updatedAt) ∧
        r.createdAt = 10 ∧ r.createdAt ≤ r.updatedAt :=
  mutation_refreshes_updatedAt [⟨1, "groceries", false, 10, 10⟩] 1
    ⟨1, "groceries", false, 10, 10⟩ ⟨.str "milk", .undefined⟩ "milk" 20 (by decide) rfl
    (by decide) (by decide) rfl (by decide)

end Todos
